import Mathlib

/-!
Verification of the Modbus/CAN protocol engine of the imx6ull gateway.

Shallow embedding of the protocol and buffered-transport code:
bytes are naturals below 256, byte strings are lists of naturals, and the
stateful C++ objects become explicit state-passing functions.  Every
definition is translated from the corresponding C++ source function, named
after it, and kept executable so that theorems can be checked on concrete
inputs.
-/

set_option maxRecDepth 8192

namespace Imx6ull

/-! ## CRC16 (ModbusRTU.cpp 537-554, identical copy in ModbusSlave.cpp 472-489) -/

/-- Inner loop body of calculateCRC16: one polynomial-division round.
    Mirrors: if (crc & 0x0001) crc = (crc >> 1) ^ 0xA001; else crc >>= 1. -/
def crcRound (crc : Nat) : Nat :=
  if crc &&& 0x0001 = 1 then (crc >>> 1) ^^^ 0xA001 else crc >>> 1

/-- Outer loop body of calculateCRC16: xor the next byte into the low byte
    of the accumulator (the static_cast of the char to quint8 is the
    mod 256), then run eight rounds. -/
def crcStep (crc b : Nat) : Nat :=
  crcRound^[8] (crc ^^^ (b % 256))

/-- ProtocolModbusRTU::calculateCRC16 (ModbusRTU.cpp 537-554): Modbus CRC16
    with initial value 0xFFFF and polynomial 0xA001.  The identical routine
    appears as ProtocolModbusSlave::calculateCRC16 (ModbusSlave.cpp 472-489). -/
def calculateCRC16 (data : List Nat) : Nat :=
  data.foldl crcStep 0xFFFF

theorem crcRound_two_mul (m : Nat) : crcRound (2 * m) = m := by
  unfold crcRound
  rw [Nat.and_one_is_mod, Nat.mul_mod_right]
  simp [Nat.shiftRight_eq_div_pow, Nat.mul_div_cancel_left _ (by norm_num : (0:Nat) < 2)]

theorem crcRound_iterate_mul256 (h : Nat) : crcRound^[8] (256 * h) = h := by
  rw [show (256 : Nat) * h = 2 * (128 * h) by ring]
  rw [Function.iterate_succ_apply, crcRound_two_mul]
  rw [show (128 : Nat) * h = 2 * (64 * h) by ring]
  rw [Function.iterate_succ_apply, crcRound_two_mul]
  rw [show (64 : Nat) * h = 2 * (32 * h) by ring]
  rw [Function.iterate_succ_apply, crcRound_two_mul]
  rw [show (32 : Nat) * h = 2 * (16 * h) by ring]
  rw [Function.iterate_succ_apply, crcRound_two_mul]
  rw [show (16 : Nat) * h = 2 * (8 * h) by ring]
  rw [Function.iterate_succ_apply, crcRound_two_mul]
  rw [show (8 : Nat) * h = 2 * (4 * h) by ring]
  rw [Function.iterate_succ_apply, crcRound_two_mul]
  rw [show (4 : Nat) * h = 2 * (2 * h) by ring]
  rw [Function.iterate_succ_apply, crcRound_two_mul]
  rw [Function.iterate_succ_apply, crcRound_two_mul, Function.iterate_zero_apply]

/-- Xoring the low byte of a number into itself clears the low byte. -/
theorem xor_mod_256 (x : Nat) : x ^^^ (x % 256) = 256 * (x / 256) := by
  have h : x ^^^ (x % 2 ^ 8) = (x >>> 8) <<< 8 := by
    apply Nat.eq_of_testBit_eq
    intro i
    simp only [Nat.testBit_xor, Nat.testBit_mod_two_pow, Nat.testBit_shiftLeft,
      Nat.testBit_shiftRight]
    by_cases hi : i < 8
    · simp [hi, Nat.not_le_of_lt hi]
    · have h8 : 8 + (i - 8) = i := by omega
      simp [hi, Nat.le_of_not_lt hi, h8]
  have h2 : x % 2 ^ 8 = x % 256 := by norm_num
  have h3 : (x >>> 8) <<< 8 = 256 * (x / 256) := by
    rw [Nat.shiftLeft_eq, Nat.shiftRight_eq_div_pow]
    norm_num
    ring
  rw [h2, h3] at h
  exact h

theorem crcRound_lt (x : Nat) (hx : x < 65536) : crcRound x < 65536 := by
  unfold crcRound
  have hdiv : x >>> 1 < 65536 := by
    rw [Nat.shiftRight_eq_div_pow]
    omega
  split
  · exact Nat.xor_lt_two_pow (n := 16) hdiv (by norm_num)
  · exact hdiv

theorem crcRound_iterate_lt (n x : Nat) (hx : x < 65536) : crcRound^[n] x < 65536 := by
  induction n generalizing x with
  | zero => simpa using hx
  | succ k ih =>
      rw [Function.iterate_succ_apply]
      exact ih _ (crcRound_lt x hx)

theorem crcStep_lt (crc b : Nat) (hc : crc < 65536) : crcStep crc b < 65536 := by
  unfold crcStep
  apply crcRound_iterate_lt
  exact Nat.xor_lt_two_pow (n := 16) hc (by have := Nat.mod_lt b (y := 256) (by norm_num); omega)

theorem foldl_crcStep_lt (l : List Nat) (c : Nat) (hc : c < 65536) :
    l.foldl crcStep c < 65536 := by
  induction l generalizing c with
  | nil => simpa using hc
  | cons b rest ih => exact ih _ (crcStep_lt c b hc)

/-- The CRC16 accumulator is a genuine 16-bit quantity (quint16 in the
    source): calculateCRC16 always returns a value below 2^16. -/
theorem calculateCRC16_lt (data : List Nat) : calculateCRC16 data < 65536 :=
  foldl_crcStep_lt data 0xFFFF (by norm_num)

/-- Feeding the accumulator its own low byte reduces it to its high byte. -/
theorem crcStep_low_byte (crc : Nat) : crcStep crc (crc % 256) = crc / 256 := by
  unfold crcStep
  rw [Nat.mod_mod_of_dvd crc (dvd_refl 256), xor_mod_256, crcRound_iterate_mul256]

/-- Claim C1: for every byte sequence b, appending the CRC16 of b (low byte
    first, then high byte) and recomputing calculateCRC16 over the extended
    sequence yields 0 (the Modbus CRC residue property),
    ModbusRTU.cpp 537-554. -/
theorem calculateCRC16_residue (b : List Nat) (hb : ∀ x ∈ b, x < 256) :
    calculateCRC16 (b ++ [calculateCRC16 b % 256, calculateCRC16 b / 256]) = 0 := by
  have hlt : calculateCRC16 b < 65536 := calculateCRC16_lt b
  unfold calculateCRC16
  rw [List.foldl_append]
  show crcStep (crcStep (calculateCRC16 b) (calculateCRC16 b % 256)) (calculateCRC16 b / 256) = 0
  rw [crcStep_low_byte]
  have hdivlt : calculateCRC16 b / 256 < 256 := by omega
  unfold crcStep
  rw [Nat.mod_eq_of_lt hdivlt, Nat.xor_self]
  rw [show (0 : Nat) = 256 * 0 by ring, crcRound_iterate_mul256]

/-- Witness for claim C1 at the concrete byte sequence 01 03. -/
theorem calculateCRC16_residue_witness :
    (∀ x ∈ [1, 3], x < 256) ∧
    calculateCRC16 ([1, 3] ++ [calculateCRC16 [1, 3] % 256, calculateCRC16 [1, 3] / 256]) = 0 :=
  ⟨by decide, calculateCRC16_residue [1, 3] (by decide)⟩

/-! ## Modbus RTU master (ModbusRTU.cpp)

The master is event-driven: a send-and-wait loop polls the serial port,
appending whatever bytes arrived to the receive buffer, until the buffer
validates as a complete response or the timeout expires.  The environment
is modelled as the list of byte chunks that arrive, one per poll
iteration; an exhausted list is the timeout expiring. -/

namespace ModbusRTU

/-- ProtocolModbusRTU::buildRequest (ModbusRTU.cpp 482-495):
    [address][function code][data][crc low][crc high]. -/
def buildRequest (slaveAddress functionCode : Nat) (data : List Nat) : List Nat :=
  let request := slaveAddress :: functionCode :: data
  let crc := calculateCRC16 request
  request ++ [crc &&& 0xFF, (crc >>> 8) &&& 0xFF]

/-- Payload bytes shared by all four read operations (e.g. ModbusRTU.cpp
    261-265): start address then count, each big-endian. -/
def readRequestData (startAddress count : Nat) : List Nat :=
  [(startAddress >>> 8) &&& 0xFF, startAddress &&& 0xFF,
   (count >>> 8) &&& 0xFF, count &&& 0xFF]

/-- Request frame transmitted by ProtocolModbusRTU::readHoldingRegisters
    (ModbusRTU.cpp 255-277), function code 0x03. -/
def readHoldingRegistersRequest (slaveAddress startAddress count : Nat) : List Nat :=
  buildRequest slaveAddress 0x03 (readRequestData startAddress count)

/-- ProtocolModbusRTU::validateResponse (ModbusRTU.cpp 500-532): minimum
    length 5, address echo, CRC over all but the last two bytes, and the
    function-code high bit clear (set means an exception response). -/
def validateResponse (response : List Nat) (slaveAddress : Nat) : Bool :=
  if response.length < 5 then false
  else if response.getD 0 0 ≠ slaveAddress then false
  else
    let receivedCRC := response.getD (response.length - 2) 0 |||
      (response.getD (response.length - 1) 0 <<< 8)
    let calculatedCRC := calculateCRC16 (response.take (response.length - 2))
    if receivedCRC ≠ calculatedCRC then false
    else if response.getD 1 0 &&& 0x80 ≠ 0 then false
    else true

/-- Wait loop of ProtocolModbusRTU::sendRequest (ModbusRTU.cpp 459-471):
    each iteration appends the newly arrived chunk, then accepts the buffer
    if it has at least 5 bytes and validates; when the arrivals are
    exhausted (timeout) the accumulated buffer is returned as is
    (ModbusRTU.cpp 476). -/
def sendRequestLoop (slaveAddress : Nat) (buffer : List Nat) :
    List (List Nat) → List Nat
  | [] => buffer
  | chunk :: rest =>
      let b := buffer ++ chunk
      if 5 ≤ b.length ∧ validateResponse b slaveAddress = true then b
      else sendRequestLoop slaveAddress b rest

/-- ProtocolModbusRTU::sendRequest (ModbusRTU.cpp 438-477): the receive
    buffer is cleared before the wait loop starts. -/
def sendRequest (slaveAddress : Nat) (arrivals : List (List Nat)) : List Nat :=
  sendRequestLoop slaveAddress [] arrivals

/-- ProtocolModbusRTU::parseBooleans (ModbusRTU.cpp 559-574): unpack count
    coil bits, least-significant bit first, skipping indices beyond the
    available data bytes. -/
def parseBooleans (data : List Nat) (count : Nat) : List Bool :=
  (List.range count).filterMap fun i =>
    if i / 8 < data.length then
      some (data.getD (i / 8) 0 &&& (1 <<< (i % 8)) ≠ 0)
    else none

/-- ProtocolModbusRTU::readCoils (ModbusRTU.cpp 198-223), connected case:
    reject count 0 or above 2000, send the request, and decode the returned
    buffer when it has at least 3 bytes: byte 2 is the byte count and the
    coil data is mid(3, byteCount). -/
def readCoils (slaveAddress startAddress count : Nat)
    (arrivals : List (List Nat)) : List Bool :=
  if count = 0 ∨ 2000 < count then []
  else
    let response := sendRequest slaveAddress arrivals
    if response.length < 3 then []
    else
      let byteCount := response.getD 2 0
      let coilData := (response.drop 3).take byteCount
      parseBooleans coilData count

/-- ProtocolModbusRTU::writeSingleRegister (ModbusRTU.cpp 329-344),
    connected case: the call reports success whenever the buffer returned
    by sendRequest is non-empty. -/
def writeSingleRegister (slaveAddress address value : Nat)
    (arrivals : List (List Nat)) : Bool :=
  let response := sendRequest slaveAddress arrivals
  !response.isEmpty

end ModbusRTU

/-- Claim C7: a built request is exactly
    [unit address][function code][payload][CRC16 low byte][CRC16 high byte],
    and readHoldingRegisters(start 0, count 10) on a master with slave
    address 1 transmits 01 03 00 00 00 0A C5 CD (ModbusRTU.cpp 482-495,
    255-277). -/
theorem rtu_buildRequest_bytes :
    (∀ a fc data,
      ModbusRTU.buildRequest a fc data =
        a :: fc :: data ++
          [calculateCRC16 (a :: fc :: data) % 256,
           calculateCRC16 (a :: fc :: data) / 256]) ∧
    ModbusRTU.readHoldingRegistersRequest 1 0 10 =
      [0x01, 0x03, 0x00, 0x00, 0x00, 0x0A, 0xC5, 0xCD] := by
  constructor
  · intro a fc data
    have hlt : calculateCRC16 (a :: fc :: data) < 65536 := calculateCRC16_lt _
    have hlo : calculateCRC16 (a :: fc :: data) &&& 0xFF =
        calculateCRC16 (a :: fc :: data) % 256 := by
      have := Nat.and_pow_two_sub_one_eq_mod (calculateCRC16 (a :: fc :: data)) 8
      norm_num at this
      exact this
    have hhi : (calculateCRC16 (a :: fc :: data) >>> 8) &&& 0xFF =
        calculateCRC16 (a :: fc :: data) / 256 := by
      rw [Nat.shiftRight_eq_div_pow]
      have := Nat.and_pow_two_sub_one_eq_mod (calculateCRC16 (a :: fc :: data) / 2 ^ 8) 8
      norm_num at this ⊢
      rw [this]
      omega
    show (a :: fc :: data) ++
        [calculateCRC16 (a :: fc :: data) &&& 0xFF,
         (calculateCRC16 (a :: fc :: data) >>> 8) &&& 0xFF] = _
    rw [hlo, hhi]
  · decide

/-- Claim C2 (refuted, code bug): after a timeout with no validated
    response, the RTU master returns whatever garbage accumulated in the
    receive buffer.  With a single garbage chunk FF the write call reports
    success, and with the garbage chunk 09 09 01 AB 00 (which never passes
    validation: wrong address echo) readCoils decodes and returns eight
    coil values.  The claim demands false for the write and an empty
    result for the read (ModbusRTU.cpp 438-477, 329-344, 198-223). -/
theorem rtu_master_returns_garbage_on_timeout :
    ModbusRTU.writeSingleRegister 1 0 0 [[0xFF]] = true ∧
    ModbusRTU.validateResponse [0xFF] 1 = false ∧
    ModbusRTU.readCoils 1 0 8 [[9, 9, 1, 0xAB, 0]] =
      [true, true, false, true, false, true, false, true] ∧
    ModbusRTU.validateResponse [9, 9, 1, 0xAB, 0] 1 = false := by
  refine ⟨by decide, by decide, by decide, by decide⟩

/-! ## Modbus RTU slave (ModbusSlave.cpp)

The slave owns two register banks of MAX_REGISTERS 16-bit cells.  A
completed frame (delimited by the 50 ms frame-gap timer) is handed to
processRequest.  Byte indexing into the frame is embedded totally: a read
past the end of the frame is reported as the outOfRangeRead outcome
(QByteArray indexing out of range is undefined behaviour in the source). -/

namespace ModbusSlave

/-- MAX_REGISTERS (ModbusSlave.h 229): size of each register bank. -/
def MAX_REGISTERS : Nat := 256

/-- State owned by a ProtocolModbusSlave instance: configured address and
    the two register banks (ModbusSlave.cpp 22-58). -/
structure SlaveState where
  slaveAddress : Nat
  holdingRegisters : List Nat
  inputRegisters : List Nat
deriving Repr, DecidableEq

/-- What the slave does with a completed frame: stay silent, transmit one
    response frame, or fall into the out-of-range indexing branch (the
    undefined behaviour of the source, with the offending byte index). -/
inductive SlaveOutcome where
  | noReply : SlaveOutcome
  | reply : List Nat → SlaveOutcome
  | outOfRangeRead : Nat → SlaveOutcome
deriving Repr, DecidableEq

/-- ProtocolModbusSlave::setHoldingRegister (ModbusSlave.cpp 218-226):
    bounds-checked write, reporting success. -/
def setHoldingRegister (st : SlaveState) (address value : Nat) :
    SlaveState × Bool :=
  if MAX_REGISTERS ≤ address then (st, false)
  else ({ st with holdingRegisters := st.holdingRegisters.set address value }, true)

/-- ProtocolModbusSlave::getHoldingRegister (ModbusSlave.cpp 231-238):
    bounds-checked read, 0 when out of range. -/
def getHoldingRegister (st : SlaveState) (address : Nat) : Nat :=
  if MAX_REGISTERS ≤ address then 0 else st.holdingRegisters.getD address 0

/-- ProtocolModbusSlave::verifyCRC (ModbusSlave.cpp 494-509): at least 4
    bytes, received CRC is the last two bytes little-endian, computed CRC
    covers everything before them. -/
def verifyCRC (data : List Nat) : Bool :=
  if data.length < 4 then false
  else
    let receivedCRC := data.getD (data.length - 2) 0 |||
      (data.getD (data.length - 1) 0 <<< 8)
    let calculatedCRC := calculateCRC16 (data.take (data.length - 2))
    receivedCRC == calculatedCRC

/-- ProtocolModbusSlave::sendResponse (ModbusSlave.cpp 437-451): append the
    CRC16 of the response, low byte then high byte, and transmit. -/
def sendResponse (response : List Nat) : List Nat :=
  let crc := calculateCRC16 response
  response ++ [crc &&& 0xFF, (crc >>> 8) &&& 0xFF]

/-- ProtocolModbusSlave::sendException (ModbusSlave.cpp 456-467):
    [address][function code with high bit set][exception code][CRC]. -/
def sendException (st : SlaveState) (functionCode exceptionCode : Nat) : List Nat :=
  sendResponse [st.slaveAddress, functionCode ||| 0x80, exceptionCode]

/-- ProtocolModbusSlave::handleReadHoldingRegisters (ModbusSlave.cpp
    317-345): out-of-range start/count gives exception 0x02, otherwise the
    response carries 2*count big-endian data bytes. -/
def handleReadHoldingRegisters (st : SlaveState) (request : List Nat) :
    SlaveState × SlaveOutcome :=
  match request.get? 2, request.get? 3, request.get? 4, request.get? 5 with
  | some b2, some b3, some b4, some b5 =>
      let startAddr := (b2 <<< 8) ||| b3
      let count := (b4 <<< 8) ||| b5
      if count = 0 ∨ 125 < count ∨ MAX_REGISTERS < startAddr + count then
        (st, .reply (sendException st 0x03 0x02))
      else
        let values := (List.range count).flatMap fun i =>
          let v := st.holdingRegisters.getD (startAddr + i) 0
          [(v >>> 8) &&& 0xFF, v &&& 0xFF]
        (st, .reply (sendResponse
          ([st.slaveAddress, 0x03, (count * 2) % 256] ++ values)))
  | _, _, _, _ => (st, .outOfRangeRead request.length)

/-- ProtocolModbusSlave::handleReadInputRegisters (ModbusSlave.cpp
    350-374): as for holding registers but over the input bank, code 0x04. -/
def handleReadInputRegisters (st : SlaveState) (request : List Nat) :
    SlaveState × SlaveOutcome :=
  match request.get? 2, request.get? 3, request.get? 4, request.get? 5 with
  | some b2, some b3, some b4, some b5 =>
      let startAddr := (b2 <<< 8) ||| b3
      let count := (b4 <<< 8) ||| b5
      if count = 0 ∨ 125 < count ∨ MAX_REGISTERS < startAddr + count then
        (st, .reply (sendException st 0x04 0x02))
      else
        let values := (List.range count).flatMap fun i =>
          let v := st.inputRegisters.getD (startAddr + i) 0
          [(v >>> 8) &&& 0xFF, v &&& 0xFF]
        (st, .reply (sendResponse
          ([st.slaveAddress, 0x04, (count * 2) % 256] ++ values)))
  | _, _, _, _ => (st, .outOfRangeRead request.length)

/-- ProtocolModbusSlave::handleWriteSingleRegister (ModbusSlave.cpp
    379-397): write the register and echo the first six request bytes. -/
def handleWriteSingleRegister (st : SlaveState) (request : List Nat) :
    SlaveState × SlaveOutcome :=
  match request.get? 2, request.get? 3, request.get? 4, request.get? 5 with
  | some b2, some b3, some b4, some b5 =>
      let address := (b2 <<< 8) ||| b3
      let value := (b4 <<< 8) ||| b5
      if MAX_REGISTERS ≤ address then
        (st, .reply (sendException st 0x06 0x02))
      else
        ({ st with holdingRegisters := st.holdingRegisters.set address value },
         .reply (sendResponse (request.take 6)))
  | _, _, _, _ => (st, .outOfRangeRead request.length)

/-- Register-writing loop of handleWriteMultipleRegisters (ModbusSlave.cpp
    414-418): the i-th value is read from bytes 7+2i and 8+2i.  Writes
    already performed are kept when a later byte read runs out of range;
    the error carries the offending index. -/
def writeRegisterValues (request : List Nat) (startAddr : Nat) :
    Nat → Nat → List Nat → Except (Nat × List Nat) (List Nat)
  | _, 0, regs => .ok regs
  | i, n + 1, regs =>
      match request.get? (7 + i * 2), request.get? (7 + i * 2 + 1) with
      | some vhi, some vlo =>
          writeRegisterValues request startAddr (i + 1) n
            (regs.set (startAddr + i) ((vhi <<< 8) ||| vlo))
      | some _, none => .error (7 + i * 2 + 1, regs)
      | none, _ => .error (7 + i * 2, regs)

/-- ProtocolModbusSlave::handleWriteMultipleRegisters (ModbusSlave.cpp
    402-432): the byte-count field is request[6]; any of count = 0,
    count > 123, start+count out of bank, or byteCount differing from
    2*count produces exception code 0x02 before any register is written. -/
def handleWriteMultipleRegisters (st : SlaveState) (request : List Nat) :
    SlaveState × SlaveOutcome :=
  match request.get? 2, request.get? 3, request.get? 4, request.get? 5 with
  | some b2, some b3, some b4, some b5 =>
      let startAddr := (b2 <<< 8) ||| b3
      let count := (b4 <<< 8) ||| b5
      match request.get? 6 with
      | none => (st, .outOfRangeRead 6)
      | some byteCount =>
          if count = 0 ∨ 123 < count ∨ MAX_REGISTERS < startAddr + count ∨
              byteCount ≠ count * 2 then
            (st, .reply (sendException st 0x10 0x02))
          else
            match writeRegisterValues request startAddr 0 count
                st.holdingRegisters with
            | .error (i, regs) =>
                ({ st with holdingRegisters := regs }, .outOfRangeRead i)
            | .ok regs =>
                ({ st with holdingRegisters := regs },
                 .reply (sendResponse
                   [st.slaveAddress, 0x10, (startAddr >>> 8) &&& 0xFF,
                    startAddr &&& 0xFF, (count >>> 8) &&& 0xFF, count &&& 0xFF]))
  | _, _, _, _ => (st, .outOfRangeRead request.length)

/-- ProtocolModbusSlave::processRequest (ModbusSlave.cpp 267-312): discard
    frames shorter than 6 bytes, frames failing the CRC check, and frames
    whose unit-address byte differs from the configured address; dispatch
    the rest on the function code, answering unsupported codes with
    exception 0x01. -/
def processRequest (st : SlaveState) (request : List Nat) :
    SlaveState × SlaveOutcome :=
  if request.length < 6 then (st, .noReply)
  else if verifyCRC request = false then (st, .noReply)
  else if request.getD 0 0 ≠ st.slaveAddress then (st, .noReply)
  else
    match request.getD 1 0 with
    | 0x03 => handleReadHoldingRegisters st request
    | 0x04 => handleReadInputRegisters st request
    | 0x06 => handleWriteSingleRegister st request
    | 0x10 => handleWriteMultipleRegisters st request
    | fc => (st, .reply (sendException st fc 0x01))

end ModbusSlave

/-- Claim C4: the slave transmits no response and leaves both register
    banks unchanged for any frame whose CRC check fails, and for any
    CRC-valid frame whose unit-address byte differs from the configured
    slave address (ModbusSlave.cpp 267-312, 494-509). -/
theorem slave_silent_on_invalid_frame (st : ModbusSlave.SlaveState)
    (request : List Nat)
    (h : ModbusSlave.verifyCRC request = false ∨
      request.getD 0 0 ≠ st.slaveAddress) :
    ModbusSlave.processRequest st request = (st, .noReply) := by
  unfold ModbusSlave.processRequest
  split
  · rfl
  · split
    · rfl
    · rename_i hlen hcrc
      cases h with
      | inl h1 => exact absurd h1 hcrc
      | inr h2 => rw [if_pos h2]

/-- Witness for claim C4: a slave configured with address 5 stays silent on
    a CRC-valid readHoldingRegisters frame addressed to unit 1. -/
theorem slave_silent_on_invalid_frame_witness :
    ModbusSlave.processRequest
        ⟨5, List.replicate 256 0, List.replicate 256 0⟩
        (ModbusRTU.buildRequest 1 0x03 [0, 0, 0, 1]) =
      (⟨5, List.replicate 256 0, List.replicate 256 0⟩, .noReply) :=
  slave_silent_on_invalid_frame _ _ (Or.inr (by decide))

/-- Claim C9: for an in-bounds address and a 16-bit value,
    setHoldingRegister succeeds, getHoldingRegister then returns the
    written value, and every other holding register reads unchanged
    (ModbusSlave.cpp 218-238, ModbusSlave.h 229). -/
theorem holding_register_roundtrip (st : ModbusSlave.SlaveState) (a v : Nat)
    (ha : a < ModbusSlave.MAX_REGISTERS) (hv : v < 65536)
    (hlen : st.holdingRegisters.length = ModbusSlave.MAX_REGISTERS) :
    (ModbusSlave.setHoldingRegister st a v).2 = true ∧
    ModbusSlave.getHoldingRegister (ModbusSlave.setHoldingRegister st a v).1 a = v ∧
    ∀ a', a' ≠ a →
      ModbusSlave.getHoldingRegister (ModbusSlave.setHoldingRegister st a v).1 a' =
        ModbusSlave.getHoldingRegister st a' := by
  have hnot : ¬ ModbusSlave.MAX_REGISTERS ≤ a := Nat.not_le_of_lt ha
  have hset : ModbusSlave.setHoldingRegister st a v =
      ({ st with holdingRegisters := st.holdingRegisters.set a v }, true) := by
    unfold ModbusSlave.setHoldingRegister
    rw [if_neg hnot]
  rw [hset]
  refine ⟨rfl, ?_, ?_⟩
  · unfold ModbusSlave.getHoldingRegister
    rw [if_neg hnot]
    have hin : a < st.holdingRegisters.length := by
      rw [hlen]; exact ha
    simp [List.getD_eq_getElem?_getD, List.getElem?_set_self hin]
  · intro a' hne
    unfold ModbusSlave.getHoldingRegister
    by_cases hbig : ModbusSlave.MAX_REGISTERS ≤ a'
    · rw [if_pos hbig, if_pos hbig]
    · rw [if_neg hbig, if_neg hbig]
      have hne' : a ≠ a' := fun e => hne e.symm
      simp [List.getD_eq_getElem?_getD, List.getElem?_set_ne hne']

/-- Witness for claim C9 at a slave with zeroed banks, address 3,
    value 1234, checking address 5 for non-interference. -/
theorem holding_register_roundtrip_witness :
    (ModbusSlave.setHoldingRegister
        ⟨1, List.replicate 256 0, List.replicate 256 0⟩ 3 1234).2 = true ∧
    ModbusSlave.getHoldingRegister
      (ModbusSlave.setHoldingRegister
        ⟨1, List.replicate 256 0, List.replicate 256 0⟩ 3 1234).1 3 = 1234 ∧
    ModbusSlave.getHoldingRegister
      (ModbusSlave.setHoldingRegister
        ⟨1, List.replicate 256 0, List.replicate 256 0⟩ 3 1234).1 5 =
      ModbusSlave.getHoldingRegister
        ⟨1, List.replicate 256 0, List.replicate 256 0⟩ 5 := by
  have h := holding_register_roundtrip
    ⟨1, List.replicate 256 0, List.replicate 256 0⟩ 3 1234
    (by decide) (by decide) (by decide)
  exact ⟨h.1, h.2.1, h.2.2 5 (by decide)⟩

/-- Claim C3 counterexample: a CRC-valid write-multiple-registers request
    to slave 1 (start 0, count 1, in range) whose byte-count field is 3
    instead of 2 draws an exception response whose exception-code byte is
    0x02, not 0x03 as the claim states (ModbusSlave.cpp 402-432). -/
theorem writeMultiple_byteCount_code_cex :
    ModbusSlave.processRequest
        ⟨1, List.replicate 256 0, List.replicate 256 0⟩
        [1, 16, 0, 0, 0, 1, 3, 170, 187, 201, 67] =
      (⟨1, List.replicate 256 0, List.replicate 256 0⟩,
       .reply [1, 144, 2, 205, 193]) ∧
    [1, 144, 2, 205, 193].getD 2 0 ≠ 3 := by
  exact ⟨by decide, by decide⟩

/-- Claim C3 as amended: on a CRC-valid write-multiple-registers request
    addressed to the slave with count in range and start+count within the
    bank but byte-count differing from twice the count, the slave answers
    with an exception frame carrying code 0x02 (the source reuses the
    illegal-data-address code for the byte-count inconsistency), and no
    register is modified (ModbusSlave.cpp 402-432, 456-467). -/
theorem writeMultiple_byteCount_mismatch (st : ModbusSlave.SlaveState)
    (request : List Nat)
    (hcrc : ModbusSlave.verifyCRC request = true)
    (haddr : request.getD 0 0 = st.slaveAddress)
    (hfc : request.getD 1 0 = 0x10)
    (hlen : 7 ≤ request.length)
    (hcount : 0 < (request.getD 4 0 <<< 8) ||| request.getD 5 0)
    (hcount2 : (request.getD 4 0 <<< 8) ||| request.getD 5 0 ≤ 123)
    (hrange : ((request.getD 2 0 <<< 8) ||| request.getD 3 0) +
        ((request.getD 4 0 <<< 8) ||| request.getD 5 0) ≤
        ModbusSlave.MAX_REGISTERS)
    (hbc : request.getD 6 0 ≠
        ((request.getD 4 0 <<< 8) ||| request.getD 5 0) * 2) :
    ModbusSlave.processRequest st request =
      (st, .reply (ModbusSlave.sendException st 0x10 0x02)) := by
  have hget : ∀ i, i < request.length →
      request.get? i = some (request.getD i 0) := by
    intro i hi
    rw [List.get?_eq_getElem?, List.getElem?_eq_getElem hi]
    simp [List.getD_eq_getElem?_getD, List.getElem?_eq_getElem hi]
  unfold ModbusSlave.processRequest
  rw [if_neg (by omega), if_neg (by simp [hcrc]), if_neg (by simpa using haddr), hfc]
  show ModbusSlave.handleWriteMultipleRegisters st request = _
  unfold ModbusSlave.handleWriteMultipleRegisters
  rw [hget 2 (by omega), hget 3 (by omega), hget 4 (by omega),
    hget 5 (by omega), hget 6 (by omega)]
  show (if _ ∨ _ ∨ _ ∨ _ then _ else _) = _
  rw [if_pos (Or.inr (Or.inr (Or.inr hbc)))]

/-- Witness for the amended claim C3 at the concrete frame of the
    counterexample. -/
theorem writeMultiple_byteCount_mismatch_witness :
    ModbusSlave.processRequest
        ⟨1, List.replicate 256 0, List.replicate 256 0⟩
        [1, 16, 0, 0, 0, 1, 3, 170, 187, 201, 67] =
      (⟨1, List.replicate 256 0, List.replicate 256 0⟩,
       .reply (ModbusSlave.sendException
         ⟨1, List.replicate 256 0, List.replicate 256 0⟩ 0x10 0x02)) :=
  writeMultiple_byteCount_mismatch _ _ (by decide) (by decide) (by decide)
    (by decide) (by decide) (by decide) (by decide) (by decide)

/-- Claim C10 (refuted, code bug): the write-multiple-registers handler
    reads the byte-count field at index 6, so a CRC-valid 6-byte frame
    carrying function code 0x10 passes every processRequest check and then
    indexes one byte past the end of the frame (ModbusSlave.cpp 267-312,
    402-417). -/
theorem slave_oob_read_on_short_writeMultiple :
    ModbusSlave.verifyCRC [1, 16, 0, 0, 0, 29] = true ∧
    ModbusSlave.processRequest
        ⟨1, List.replicate 256 0, List.replicate 256 0⟩
        [1, 16, 0, 0, 0, 29] =
      (⟨1, List.replicate 256 0, List.replicate 256 0⟩, .outOfRangeRead 6) := by
  exact ⟨by decide, by decide⟩

/-! ## Modbus TCP master (ModbusTCP.cpp) -/

namespace ModbusTCP

/-- ProtocolModbusTCP::validateResponse (ModbusTCP.cpp 489-522): at least
    8 bytes, transaction id (bytes 0-1, big-endian) equal to the id of the
    outstanding request, protocol id bytes 2-3 zero, unit id at byte 6,
    and function-code high bit clear at byte 7. -/
def validateResponse (response : List Nat)
    (expectedTransactionId unitId : Nat) : Bool :=
  if response.length < 8 then false
  else if (response.getD 0 0 <<< 8) ||| response.getD 1 0 ≠
      expectedTransactionId then false
  else if response.getD 2 0 ≠ 0 then false
  else if response.getD 3 0 ≠ 0 then false
  else if response.getD 6 0 ≠ unitId then false
  else if response.getD 7 0 &&& 0x80 ≠ 0 then false
  else true

/-- Acceptance test of one iteration of the sendRequest wait loop
    (ModbusTCP.cpp 438-449): the buffered response is accepted, completing
    the call, when it holds the full frame announced by the MBAP length
    field (bytes 4-5) and validateResponse passes; otherwise the wait
    continues. -/
def tryAcceptResponse (buffer : List Nat)
    (expectedTransactionId unitId : Nat) : Bool :=
  if buffer.length < 8 then false
  else if buffer.length < 6 + ((buffer.getD 4 0 <<< 8) ||| buffer.getD 5 0) then
    false
  else validateResponse buffer expectedTransactionId unitId

end ModbusTCP

/-- Claim C6: a buffered response whose transaction id differs from the
    outstanding request's id is never accepted (the wait continues), while
    a complete response with matching transaction id, protocol id 0,
    matching unit id and a function code with the high bit clear is
    accepted and completes the call (ModbusTCP.cpp 489-522, 414-457). -/
theorem tcp_response_validation :
    (∀ (resp : List Nat) (tid uid : Nat),
      (resp.getD 0 0 <<< 8) ||| resp.getD 1 0 ≠ tid →
      ModbusTCP.tryAcceptResponse resp tid uid = false ∧
      ModbusTCP.validateResponse resp tid uid = false) ∧
    (∀ (resp : List Nat) (tid uid : Nat),
      8 ≤ resp.length →
      (resp.getD 0 0 <<< 8) ||| resp.getD 1 0 = tid →
      resp.getD 2 0 = 0 → resp.getD 3 0 = 0 →
      resp.getD 6 0 = uid →
      resp.getD 7 0 &&& 0x80 = 0 →
      resp.length ≥ 6 + ((resp.getD 4 0 <<< 8) ||| resp.getD 5 0) →
      ModbusTCP.tryAcceptResponse resp tid uid = true ∧
      ModbusTCP.validateResponse resp tid uid = true) := by
  constructor
  · intro resp tid uid hmismatch
    have hval : ModbusTCP.validateResponse resp tid uid = false := by
      unfold ModbusTCP.validateResponse
      by_cases h8 : resp.length < 8
      · rw [if_pos h8]
      · rw [if_neg h8, if_pos hmismatch]
    refine ⟨?_, hval⟩
    unfold ModbusTCP.tryAcceptResponse
    by_cases h8 : resp.length < 8
    · rw [if_pos h8]
    · rw [if_neg h8]
      by_cases hshort : resp.length < 6 + ((resp.getD 4 0 <<< 8) ||| resp.getD 5 0)
      · rw [if_pos hshort]
      · rw [if_neg hshort]
        exact hval
  · intro resp tid uid hlen htid hp2 hp3 huid hfc hfull
    have hval : ModbusTCP.validateResponse resp tid uid = true := by
      unfold ModbusTCP.validateResponse
      rw [if_neg (by omega), if_neg (by simpa using htid),
        if_neg (by simpa using hp2), if_neg (by simpa using hp3),
        if_neg (by simpa using huid), if_neg (by simpa using hfc)]
    refine ⟨?_, hval⟩
    unfold ModbusTCP.tryAcceptResponse
    rw [if_neg (by omega), if_neg (by omega)]
    exact hval

/-- Witness for claim C6, the spec scenario: outstanding transaction id 5,
    unit id 1; the 9-byte response carrying transaction id 6 is ignored and
    the one carrying transaction id 5 is accepted. -/
theorem tcp_response_validation_witness :
    ModbusTCP.tryAcceptResponse [0, 6, 0, 0, 0, 3, 1, 3, 0] 5 1 = false ∧
    ModbusTCP.tryAcceptResponse [0, 5, 0, 0, 0, 3, 1, 3, 0] 5 1 = true :=
  ⟨(tcp_response_validation.1 [0, 6, 0, 0, 0, 3, 1, 3, 0] 5 1 (by decide)).1,
   (tcp_response_validation.2 [0, 5, 0, 0, 0, 3, 1, 3, 0] 5 1 (by decide)
      (by decide) (by decide) (by decide) (by decide) (by decide) (by decide)).1⟩

/-! ## High-performance CAN receive thread (DriverCANHighPerf.cpp)

The receive thread appends each valid frame to a bounded FIFO under a
mutex: when the queue already holds maxBufferSize frames, the oldest is
dequeued and the dropped counter incremented before the new frame is
enqueued (DriverCANHighPerf.cpp 110-159).  The queue is polymorphic in
the frame type, as nothing in the buffering logic inspects a frame. -/

namespace CANReceiveThread

/-- Buffering state of a CANReceiveThread: FIFO (front = oldest), the
    received/dropped counters and the capacity
    (DriverCANHighPerf.h 124-129). -/
structure ReceiveState (α : Type) where
  buffer : List α
  receivedCount : Nat
  droppedCount : Nat
  maxBufferSize : Nat
deriving Repr, DecidableEq

/-- Per-frame body of CANReceiveThread::run for a valid frame
    (DriverCANHighPerf.cpp 117-147): count it, drop the oldest buffered
    frame when the queue is full, then enqueue the new frame at the back. -/
def enqueueFrame (q : ReceiveState α) (frame : α) : ReceiveState α :=
  if q.maxBufferSize ≤ q.buffer.length then
    { q with buffer := q.buffer.tail ++ [frame],
             receivedCount := q.receivedCount + 1,
             droppedCount := q.droppedCount + 1 }
  else
    { q with buffer := q.buffer ++ [frame],
             receivedCount := q.receivedCount + 1 }

/-- Batch arrival of a sequence of valid frames, oldest first
    (the inner while loop of CANReceiveThread::run). -/
def enqueueAll (q : ReceiveState α) (frames : List α) : ReceiveState α :=
  frames.foldl enqueueFrame q

/-- CANReceiveThread::readAllFrames (DriverCANHighPerf.cpp 192-205):
    drain the queue front to back, leaving it empty. -/
def readAllFrames (q : ReceiveState α) : List α × ReceiveState α :=
  (q.buffer, { q with buffer := [] })

/-- CANReceiveThread::getBufferedFrameCount (DriverCANHighPerf.cpp
    210-214). -/
def getBufferedFrameCount (q : ReceiveState α) : Nat :=
  q.buffer.length

/-- Freshly started receive thread with a given capacity
    (DriverCANHighPerf.cpp 31-44: empty queue, zeroed counters). -/
def emptyState (α : Type) (capacity : Nat) : ReceiveState α :=
  ⟨[], 0, 0, capacity⟩

/-- Invariant run of enqueueAll: starting from any queue within capacity,
    the final buffer is the suffix of the concatenation that fits the
    capacity, and the dropped counter advances by the overflow amount. -/
theorem enqueueAll_spec (C : Nat) (hC : 0 < C) (fs : List α) :
    ∀ (buf : List α) (r d : Nat), buf.length ≤ C →
    (enqueueAll ⟨buf, r, d, C⟩ fs).buffer =
      (buf ++ fs).drop (buf.length + fs.length - C) ∧
    (enqueueAll ⟨buf, r, d, C⟩ fs).droppedCount =
      d + (buf.length + fs.length - C) ∧
    (enqueueAll ⟨buf, r, d, C⟩ fs).maxBufferSize = C := by
  induction fs with
  | nil =>
      intro buf r d hlen
      have h0 : buf.length - C = 0 := by omega
      simp [enqueueAll, h0]
  | cons f rest ih =>
      intro buf r d hlen
      have hfold : enqueueAll (⟨buf, r, d, C⟩ : ReceiveState α) (f :: rest) =
          enqueueAll (enqueueFrame ⟨buf, r, d, C⟩ f) rest := by
        rfl
      by_cases hfull : C ≤ buf.length
      · have hq : buf.length = C := le_antisymm hlen hfull
        obtain ⟨a, t, hbuf⟩ : ∃ a t, buf = a :: t := by
          cases hb : buf with
          | nil => rw [hb] at hq; simp at hq; omega
          | cons a t => exact ⟨a, t, rfl⟩
        have hframe : enqueueFrame (⟨buf, r, d, C⟩ : ReceiveState α) f =
            ⟨buf.tail ++ [f], r + 1, d + 1, C⟩ := by
          unfold enqueueFrame
          rw [if_pos hfull]
        have htlen : t.length + 1 = C := by
          rw [hbuf] at hq; simpa using hq
        have htail : (buf.tail ++ [f]).length ≤ C := by
          rw [hbuf]; simp; omega
        obtain ⟨hb, hd, hm⟩ := ih (buf.tail ++ [f]) (r + 1) (d + 1) htail
        rw [hfold, hframe]
        refine ⟨?_, ?_, hm⟩
        · rw [hb, hbuf]
          simp only [List.tail_cons, List.length_append, List.length_cons,
            List.length_nil, List.cons_append, List.append_assoc,
            List.singleton_append, List.nil_append]
          rw [show t.length + (0 + 1) + rest.length - C = rest.length by omega]
          rw [show t.length + 1 + (rest.length + 1) - C = rest.length + 1 by omega]
          rw [List.drop_succ_cons]
        · rw [hd, hbuf]
          simp only [List.tail_cons, List.length_append, List.length_cons,
            List.length_nil]
          omega
      · have hframe : enqueueFrame (⟨buf, r, d, C⟩ : ReceiveState α) f =
            ⟨buf ++ [f], r + 1, d, C⟩ := by
          unfold enqueueFrame
          rw [if_neg hfull]
        have hlen' : (buf ++ [f]).length ≤ C := by
          simp; omega
        obtain ⟨hb, hd, hm⟩ := ih (buf ++ [f]) (r + 1) d hlen'
        rw [hfold, hframe]
        refine ⟨?_, ?_, hm⟩
        · rw [hb]
          simp only [List.length_append, List.length_cons, List.length_nil,
            List.append_assoc, List.singleton_append]
          rw [show buf.length + (0 + 1) + rest.length - C =
            buf.length + (rest.length + 1) - C by omega]
        · rw [hd]
          simp only [List.length_append, List.length_cons, List.length_nil]
          omega

end CANReceiveThread

/-- Claim C5: enqueueing N frames one at a time into an initially empty
    bounded queue of capacity C with N > C leaves exactly C frames
    buffered, a dropped counter of N - C, and the buffered frames are the
    last C enqueued in their original relative order; readAllFrames then
    returns them in that order (DriverCANHighPerf.cpp 110-159, 192-205). -/
theorem can_queue_overflow (α : Type) (fs : List α) (C : Nat)
    (hC : 0 < C) (hN : C < fs.length) :
    CANReceiveThread.getBufferedFrameCount
      (CANReceiveThread.enqueueAll (CANReceiveThread.emptyState α C) fs) = C ∧
    (CANReceiveThread.enqueueAll
      (CANReceiveThread.emptyState α C) fs).droppedCount = fs.length - C ∧
    (CANReceiveThread.enqueueAll (CANReceiveThread.emptyState α C) fs).buffer =
      fs.drop (fs.length - C) ∧
    (CANReceiveThread.readAllFrames
      (CANReceiveThread.enqueueAll (CANReceiveThread.emptyState α C) fs)).1 =
      fs.drop (fs.length - C) := by
  obtain ⟨hb, hd, hm⟩ :=
    CANReceiveThread.enqueueAll_spec C hC fs ([] : List α) 0 0 (by simp)
  have hb' : (CANReceiveThread.enqueueAll
      (CANReceiveThread.emptyState α C) fs).buffer = fs.drop (fs.length - C) := by
    show (CANReceiveThread.enqueueAll ⟨[], 0, 0, C⟩ fs).buffer = _
    rw [hb]
    simp
  have hd' : (CANReceiveThread.enqueueAll
      (CANReceiveThread.emptyState α C) fs).droppedCount = fs.length - C := by
    show (CANReceiveThread.enqueueAll ⟨[], 0, 0, C⟩ fs).droppedCount = _
    rw [hd]
    simp
  refine ⟨?_, hd', hb', hb'⟩
  unfold CANReceiveThread.getBufferedFrameCount
  rw [hb', List.length_drop]
  omega

/-- Witness for claim C5: three frames into a queue of capacity two leave
    frames 20 and 30 buffered, in order, with one drop. -/
theorem can_queue_overflow_witness :
    CANReceiveThread.getBufferedFrameCount
      (CANReceiveThread.enqueueAll
        (CANReceiveThread.emptyState Nat 2) [10, 20, 30]) = 2 ∧
    (CANReceiveThread.enqueueAll
      (CANReceiveThread.emptyState Nat 2) [10, 20, 30]).droppedCount = 1 ∧
    (CANReceiveThread.enqueueAll
      (CANReceiveThread.emptyState Nat 2) [10, 20, 30]).buffer = [20, 30] ∧
    (CANReceiveThread.readAllFrames
      (CANReceiveThread.enqueueAll
        (CANReceiveThread.emptyState Nat 2) [10, 20, 30])).1 = [20, 30] :=
  can_queue_overflow Nat [10, 20, 30] 2 (by decide) (by decide)

/-! ## Buffered serial channel (DriverSerial.cpp) -/

namespace DriverSerial

/-- DriverSerial::onReadyRead (DriverSerial.cpp 596-627): newly arrived
    bytes are appended to the read buffer; if the buffer then exceeds its
    cap it is replaced by right(cap / 2), its newest cap / 2 bytes, and a
    warning is emitted (the Bool).  An empty arrival changes nothing.
    The default cap is 65536 (DriverSerial.cpp 26). -/
def onReadyRead (readBuffer data : List Nat) (readBufferMaxSize : Nat) :
    List Nat × Bool :=
  if data.isEmpty then (readBuffer, false)
  else
    if readBufferMaxSize < (readBuffer ++ data).length then
      ((readBuffer ++ data).drop
        ((readBuffer ++ data).length - readBufferMaxSize / 2), true)
    else (readBuffer ++ data, false)

end DriverSerial

/-- Claim C8: appending arrived bytes to the read buffer yields the plain
    concatenation while it stays within the cap M; when the concatenation
    exceeds M, the buffer becomes exactly its last M / 2 bytes and the
    warning is raised (DriverSerial.cpp 596-627). -/
theorem serial_read_buffer_cap (readBuffer data : List Nat) (M : Nat)
    (hdata : data ≠ []) :
    (M < (readBuffer ++ data).length →
      DriverSerial.onReadyRead readBuffer data M =
        ((readBuffer ++ data).drop ((readBuffer ++ data).length - M / 2),
         true) ∧
      (DriverSerial.onReadyRead readBuffer data M).1.length = M / 2) ∧
    ((readBuffer ++ data).length ≤ M →
      DriverSerial.onReadyRead readBuffer data M =
        (readBuffer ++ data, false)) := by
  have hne : data.isEmpty = false := by
    cases data with
    | nil => exact absurd rfl hdata
    | cons x xs => rfl
  constructor
  · intro hover
    have heq : DriverSerial.onReadyRead readBuffer data M =
        ((readBuffer ++ data).drop ((readBuffer ++ data).length - M / 2),
         true) := by
      unfold DriverSerial.onReadyRead
      rw [hne]
      show (if M < (readBuffer ++ data).length then _ else _) = _
      rw [if_pos hover]
    refine ⟨heq, ?_⟩
    rw [heq, List.length_drop]
    omega
  · intro hunder
    unfold DriverSerial.onReadyRead
    rw [hne]
    show (if M < (readBuffer ++ data).length then _ else _) = _
    rw [if_neg (by omega)]

/-- Witness for claim C8: appending one byte to a three-byte buffer with
    cap 3 overflows and keeps only the newest 3 / 2 = 1 byte; with cap 4
    the concatenation is kept whole. -/
theorem serial_read_buffer_cap_witness :
    DriverSerial.onReadyRead [1, 2, 3] [4] 3 = ([4], true) ∧
    DriverSerial.onReadyRead [1, 2, 3] [4] 4 = ([1, 2, 3, 4], false) :=
  ⟨((serial_read_buffer_cap [1, 2, 3] [4] 3 (by decide)).1 (by decide)).1,
   (serial_read_buffer_cap [1, 2, 3] [4] 4 (by decide)).2 (by decide)⟩

end Imx6ull
